import Mathlib

/-!
# Verification of the Crypto-Wallet ledger canister

Shallow embedding of `src/src/icp_rust_boilerplate_backend/src/lib.rs`.

Modelling conventions:
* `u64` values are `Nat`; additions that can overflow in the Rust code
  (release-profile wrapping semantics) are taken modulo `U = 2 ^ 64`;
  subtractions in the code are all guarded by a `≥` check, so plain `Nat`
  subtraction is exact on those paths.
* Each `StableBTreeMap<u64, _, _>` is a strictly-key-sorted association
  list `List (Nat × α)`; `iter` is list order (ascending keys, as for a
  B-tree), `insert` replaces the entry at the key, `remove` deletes it.
* The `ID_COUNTER` stable `Cell<u64>` is a `Nat` field; `Cell::set`
  returns the previous value, so the id taken by the code is the counter
  value before the increment.
* `ic_cdk::api::time()` is an external input; functions that stamp
  `created_at` receive the current time as an explicit `now` argument.
* Canister state (counter + the two maps) is threaded explicitly:
  update calls take a `LedgerState` and return `(result, newState)`;
  query calls are pure functions of the state.
-/

namespace CryptoWallet

/-- `2 ^ 64`, the modulus of Rust `u64` arithmetic. -/
def U : Nat := 2 ^ 64

/-- The `User` record stored in `USER_STORAGE` (lib.rs lines 13–24). -/
structure User where
  id : Nat
  first_name : String
  last_name : String
  username : String
  email : String
  phone_number : String
  created_at : Nat
  balance : Nat
  points : Nat
deriving DecidableEq

/-- The `Transaction` record stored in `TRANSACTION_STORAGE` (lib.rs lines 26–33). -/
structure Transaction where
  id : Nat
  from_user_id : Nat
  to_user_id : Nat
  amount : Nat
  created_at : Nat
deriving DecidableEq

/-- `UserPayload` (lib.rs lines 86–92). -/
structure UserPayload where
  first_name : String
  last_name : String
  email : String
  phone_number : String
deriving DecidableEq

/-- `TransactionPayload` (lib.rs lines 94–99). -/
structure TransactionPayload where
  from_user_id : Nat
  to_user_id : Nat
  amount : Nat
deriving DecidableEq

/-- `PointsPayload` (lib.rs lines 101–105). -/
structure PointsPayload where
  user_id : Nat
  points : Nat
deriving DecidableEq

/-- `DepositPayload` (lib.rs lines 107–112). -/
structure DepositPayload where
  user_id : Nat
  amount : Nat
deriving DecidableEq

/-- The `Message` enum (lib.rs lines 114–121). -/
inductive Message where
  | Success (s : String)
  | Error (s : String)
  | NotFound (s : String)
  | InvalidPayload (s : String)
  | Unauthorized (s : String)
deriving DecidableEq

/-- An association store: the contents of one `StableBTreeMap<u64, α, _>`,
kept as a list of (key, value) pairs in strictly ascending key order. -/
abbrev Store (α : Type) := List (Nat × α)

/-- `StableBTreeMap::get` / the value at a key. -/
def lookupKey {α : Type} (k : Nat) : Store α → Option α
  | [] => none
  | (k', v') :: rest => if k = k' then some v' else lookupKey k rest

/-- `StableBTreeMap::insert`: replace the entry at `k` (or insert it at its
sorted position). -/
def insertSorted {α : Type} (k : Nat) (v : α) : Store α → Store α
  | [] => [(k, v)]
  | (k', v') :: rest =>
    if k < k' then (k, v) :: (k', v') :: rest
    else if k = k' then (k, v) :: rest
    else (k', v') :: insertSorted k v rest

/-- `StableBTreeMap::remove`: delete the entry at `k` (the removed value, if
any, is `lookupKey k`). -/
def removeKey {α : Type} (k : Nat) : Store α → Store α
  | [] => []
  | (k', v') :: rest => if k = k' then rest else (k', v') :: removeKey k rest

/-- Keys are strictly ascending (the B-tree iteration invariant). -/
abbrev SortedKeys {α : Type} (l : Store α) : Prop :=
  List.Pairwise (fun a b => a.1 < b.1) l

/-- The whole canister state: the stable id counter and the two stable maps. -/
structure LedgerState where
  counter : Nat
  users : Store User
  transactions : Store Transaction
deriving DecidableEq

/-- Well-formedness of `USER_STORAGE`: ascending keys, and every stored
record's `id` field equals its key (all inserts in the code use the
record's id as the key). -/
abbrev UsersWF (l : Store User) : Prop :=
  SortedKeys l ∧ ∀ kv ∈ l, (kv.2 : User).id = kv.1

/-- Well-formedness of `TRANSACTION_STORAGE`: ascending keys and key = id. -/
abbrev TxsWF (l : Store Transaction) : Prop :=
  SortedKeys l ∧ ∀ kv ∈ l, (kv.2 : Transaction).id = kv.1

/-! ## Basic store lemmas -/

theorem lookupKey_insertSorted_self {α : Type} (k : Nat) (v : α) (l : Store α) :
    lookupKey k (insertSorted k v l) = some v := by
  induction l with
  | nil => simp [insertSorted, lookupKey]
  | cons hd tl ih =>
    obtain ⟨k', v'⟩ := hd
    by_cases h1 : k < k'
    · simp [insertSorted, h1, lookupKey]
    · by_cases h2 : k = k'
      · simp [insertSorted, h1, h2, lookupKey]
      · simp [insertSorted, h1, h2, lookupKey, ih]

theorem lookupKey_insertSorted_ne {α : Type} {j k : Nat} (hjk : j ≠ k) (v : α)
    (l : Store α) : lookupKey j (insertSorted k v l) = lookupKey j l := by
  induction l with
  | nil => simp [insertSorted, lookupKey, hjk]
  | cons hd tl ih =>
    obtain ⟨k', v'⟩ := hd
    by_cases h1 : k < k'
    · simp [insertSorted, h1, lookupKey, hjk]
    · by_cases h2 : k = k'
      · subst h2; simp [insertSorted, h1, lookupKey, hjk]
      · simp only [insertSorted, if_neg h1, if_neg h2, lookupKey]
        by_cases h3 : j = k'
        · simp [h3]
        · simp [h3, ih]

theorem lookupKey_removeKey_ne {α : Type} {j k : Nat} (hjk : j ≠ k)
    (l : Store α) : lookupKey j (removeKey k l) = lookupKey j l := by
  induction l with
  | nil => simp [removeKey]
  | cons hd tl ih =>
    obtain ⟨k', v'⟩ := hd
    by_cases h1 : k = k'
    · subst h1; simp [removeKey, lookupKey, hjk]
    · simp only [removeKey, if_neg h1, lookupKey]
      by_cases h2 : j = k'
      · simp [h2]
      · simp [h2, ih]

theorem lookupKey_eq_none_of_forall {α : Type} {k : Nat} {l : Store α}
    (h : ∀ kv ∈ l, kv.1 ≠ k) : lookupKey k l = none := by
  induction l with
  | nil => rfl
  | cons hd tl ih =>
    obtain ⟨k', v'⟩ := hd
    have hk : k ≠ k' := fun he => (h (k', v') (by simp)) (by simp [he])
    simp only [lookupKey, if_neg hk]
    exact ih (fun kv hkv => h kv (by simp [hkv]))

theorem lookupKey_removeKey_self {α : Type} {k : Nat} {l : Store α}
    (hs : SortedKeys l) : lookupKey k (removeKey k l) = none := by
  induction l with
  | nil => rfl
  | cons hd tl ih =>
    obtain ⟨k', v'⟩ := hd
    obtain ⟨hhd, htl⟩ := List.pairwise_cons.mp hs
    by_cases h1 : k = k'
    · subst h1
      simp only [removeKey, if_pos rfl]
      exact lookupKey_eq_none_of_forall (fun kv hkv => Nat.ne_of_gt (hhd kv hkv))
    · simp only [removeKey, if_neg h1, lookupKey, if_neg h1]
      exact ih htl

theorem lookupKey_some_mem {α : Type} {k : Nat} {v : α} {l : Store α}
    (h : lookupKey k l = some v) : (k, v) ∈ l := by
  induction l with
  | nil => simp [lookupKey] at h
  | cons hd tl ih =>
    obtain ⟨k', v'⟩ := hd
    by_cases h1 : k = k'
    · subst h1
      simp [lookupKey] at h
      subst h; simp
    · simp only [lookupKey, if_neg h1] at h
      simp [ih h]

theorem mem_insertSorted {α : Type} {kv : Nat × α} {k : Nat} {v : α}
    {l : Store α} (h : kv ∈ insertSorted k v l) : kv = (k, v) ∨ kv ∈ l := by
  induction l with
  | nil =>
    simp only [insertSorted, List.mem_singleton] at h
    exact Or.inl h
  | cons hd tl ih =>
    obtain ⟨k', v'⟩ := hd
    by_cases h1 : k < k'
    · simp only [insertSorted, if_pos h1, List.mem_cons] at h
      rcases h with h | h | h
      · exact Or.inl h
      · exact Or.inr (by simp [h])
      · exact Or.inr (by simp [h])
    · by_cases h2 : k = k'
      · simp only [insertSorted, if_neg h1, if_pos h2, List.mem_cons] at h
        rcases h with h | h
        · exact Or.inl h
        · exact Or.inr (by simp [h])
      · simp only [insertSorted, if_neg h1, if_neg h2, List.mem_cons] at h
        rcases h with h | h
        · exact Or.inr (by simp [h])
        · rcases ih h with h' | h'
          · exact Or.inl h'
          · exact Or.inr (by simp [h'])

theorem mem_removeKey {α : Type} {kv : Nat × α} {k : Nat} {l : Store α}
    (h : kv ∈ removeKey k l) : kv ∈ l := by
  induction l with
  | nil => simp [removeKey] at h
  | cons hd tl ih =>
    obtain ⟨k', v'⟩ := hd
    by_cases h1 : k = k'
    · simp only [removeKey, if_pos h1] at h; simp [h]
    · simp only [removeKey, if_neg h1, List.mem_cons] at h
      rcases h with h | h
      · simp [h]
      · simp [ih h]

theorem sortedKeys_insertSorted {α : Type} (k : Nat) (v : α) {l : Store α}
    (hs : SortedKeys l) : SortedKeys (insertSorted k v l) := by
  induction l with
  | nil => simp [insertSorted]
  | cons hd tl ih =>
    obtain ⟨k', v'⟩ := hd
    obtain ⟨hhd, htl⟩ := List.pairwise_cons.mp hs
    by_cases h1 : k < k'
    · simp only [insertSorted, if_pos h1]
      refine List.pairwise_cons.mpr ⟨?_, hs⟩
      intro kv hkv
      rcases List.mem_cons.mp hkv with h | h
      · subst h; exact h1
      · exact lt_trans h1 (hhd kv h)
    · by_cases h2 : k = k'
      · subst h2
        simp only [insertSorted, if_neg h1, if_pos rfl]
        exact List.pairwise_cons.mpr ⟨fun kv hkv => hhd kv hkv, htl⟩
      · simp only [insertSorted, if_neg h1, if_neg h2]
        refine List.pairwise_cons.mpr ⟨?_, ih htl⟩
        intro kv hkv
        rcases mem_insertSorted hkv with h | h
        · subst h; omega
        · exact hhd kv h

theorem sortedKeys_removeKey {α : Type} (k : Nat) {l : Store α}
    (hs : SortedKeys l) : SortedKeys (removeKey k l) := by
  induction l with
  | nil => simp [removeKey, SortedKeys]
  | cons hd tl ih =>
    obtain ⟨k', v'⟩ := hd
    obtain ⟨hhd, htl⟩ := List.pairwise_cons.mp hs
    by_cases h1 : k = k'
    · simp only [removeKey, if_pos h1]; exact htl
    · simp only [removeKey, if_neg h1]
      exact List.pairwise_cons.mpr ⟨fun kv hkv => hhd kv (mem_removeKey hkv), ih htl⟩

theorem insertSorted_removeKey_cancel {α : Type} {k : Nat} {v : α} {l : Store α}
    (hs : SortedKeys l) (hv : lookupKey k l = some v) :
    insertSorted k v (removeKey k l) = l := by
  induction l with
  | nil => simp [lookupKey] at hv
  | cons hd tl ih =>
    obtain ⟨k', v'⟩ := hd
    obtain ⟨hhd, htl⟩ := List.pairwise_cons.mp hs
    by_cases h1 : k = k'
    · subst h1
      simp [lookupKey] at hv
      subst hv
      simp only [removeKey, if_pos rfl]
      cases tl with
      | nil => rfl
      | cons hd2 tl2 =>
        have hlt : k < hd2.1 := hhd hd2 (by simp)
        obtain ⟨k2, v2⟩ := hd2
        simp only [insertSorted, if_pos hlt]
    · simp only [lookupKey, if_neg h1] at hv
      have hkmem : (k, v) ∈ tl := lookupKey_some_mem hv
      have hgt : k' < k := hhd (k, v) hkmem
      simp only [removeKey, if_neg h1, insertSorted,
        if_neg (by omega : ¬ k < k'), if_neg h1]
      rw [ih htl hv]

/-! ## Balance totals -/

/-- Total currency balance across all stored users. -/
def sumBal (l : Store User) : Nat :=
  (l.map (fun kv => kv.2.balance)).sum

theorem sumBal_insertSorted_absent {k : Nat} (v : User) {l : Store User}
    (h : lookupKey k l = none) :
    sumBal (insertSorted k v l) = sumBal l + v.balance := by
  induction l with
  | nil => simp [insertSorted, sumBal]
  | cons hd tl ih =>
    obtain ⟨k', v'⟩ := hd
    have hk : k ≠ k' := by
      intro he
      simp [lookupKey, he] at h
    simp only [lookupKey, if_neg hk] at h
    by_cases h1 : k < k'
    · simp only [insertSorted, if_pos h1, sumBal, List.map_cons, List.sum_cons]
      omega
    · simp only [insertSorted, if_neg h1, if_neg hk, sumBal, List.map_cons,
        List.sum_cons]
      have := ih h
      simp only [sumBal] at this
      omega

theorem sumBal_insertSorted_present {k : Nat} (v : User) {w : User}
    {l : Store User} (hs : SortedKeys l) (h : lookupKey k l = some w) :
    sumBal (insertSorted k v l) + w.balance = sumBal l + v.balance := by
  induction l with
  | nil => simp [lookupKey] at h
  | cons hd tl ih =>
    obtain ⟨k', v'⟩ := hd
    obtain ⟨hhd, htl⟩ := List.pairwise_cons.mp hs
    by_cases h1 : k = k'
    · subst h1
      simp [lookupKey] at h
      subst h
      simp [insertSorted, sumBal]
      omega
    · simp only [lookupKey, if_neg h1] at h
      have hgt : k' < k := hhd (k, w) (lookupKey_some_mem h)
      simp only [insertSorted, if_neg (by omega : ¬ k < k'), if_neg h1, sumBal,
        List.map_cons, List.sum_cons]
      have := ih htl h
      simp only [sumBal] at this
      omega

theorem sumBal_removeKey_present {k : Nat} {w : User} {l : Store User}
    (hs : SortedKeys l) (h : lookupKey k l = some w) :
    sumBal (removeKey k l) + w.balance = sumBal l := by
  induction l with
  | nil => simp [lookupKey] at h
  | cons hd tl ih =>
    obtain ⟨k', v'⟩ := hd
    obtain ⟨hhd, htl⟩ := List.pairwise_cons.mp hs
    by_cases h1 : k = k'
    · subst h1
      simp [lookupKey] at h
      subst h
      simp [removeKey, sumBal]
      omega
    · simp only [lookupKey, if_neg h1] at h
      simp only [removeKey, if_neg h1, sumBal, List.map_cons, List.sum_cons]
      have := ih htl h
      simp only [sumBal] at this
      omega

/-! ## Validation helpers (create_user, lib.rs lines 125–148) -/

/-- A character of the regex class `[^\s@]`: not whitespace, not `@`. -/
def emailChar (c : Char) : Bool :=
  !c.isWhitespace && c != '@'

/-- Decision procedure for the anchored regex `[^\s@]+@[^\s@]+\.[^\s@]+`
(lib.rs line 136): exactly one `@`; a nonempty whitespace-free local part
before it; after it a whitespace-free part containing a `.` that is neither
its first nor its last character. -/
def email_ok (s : String) : Bool :=
  let cs := s.toList
  let l := cs.takeWhile (fun c => c != '@')
  let r := (cs.dropWhile (fun c => c != '@')).tail
  cs.count '@' == 1 &&
  !l.isEmpty && l.all (fun c => !c.isWhitespace) &&
  r.all (fun c => !c.isWhitespace) &&
  (r.drop 1).dropLast.contains '.'

/-- Decision procedure for the anchored regex `\+?[1-9]\d\x7b1,14\x7d`
(lib.rs line 143): optional leading `+`, a nonzero digit, then 1 to 14
digits. -/
def phone_ok (s : String) : Bool :=
  let cs :=
    match s.toList with
    | '+' :: rest => rest
    | cs => cs
  match cs with
  | [] => false
  | c :: rest =>
    ('1' ≤ c && c ≤ '9') && (1 ≤ rest.length && rest.length ≤ 14) &&
      rest.all Char.isDigit

/-- Username generation (lib.rs lines 169–176): lowercase concatenation of
first and last name, truncated to 10 characters (character-wise lowercase
mapping). -/
def make_username (first_name last_name : String) : String :=
  ((first_name.toList.map Char.toLower ++
    last_name.toList.map Char.toLower).take 10).asString

/-! ## The canister operations -/

/-- `create_user` (lib.rs lines 123–191). -/
def create_user (st : LedgerState) (now : Nat) (p : UserPayload) :
    Except Message User × LedgerState :=
  if p.first_name.isEmpty || p.last_name.isEmpty || p.email.isEmpty ||
      p.phone_number.isEmpty then
    (Except.error (Message.InvalidPayload
      "Ensure \x27first_name\x27, \x27last_name\x27, \x27email\x27, and \x27phone_number\x27 are provided."),
     st)
  else if !email_ok p.email then
    (Except.error (Message.InvalidPayload "Invalid email address format"), st)
  else if !phone_ok p.phone_number then
    (Except.error (Message.InvalidPayload "Invalid phone number format"), st)
  else if !(st.users.all (fun kv => kv.2.email != p.email)) then
    (Except.error (Message.InvalidPayload "Email already exists"), st)
  else
    let id := st.counter
    let user : User :=
      { id := id
        username := make_username p.first_name p.last_name
        first_name := p.first_name
        last_name := p.last_name
        email := p.email
        phone_number := p.phone_number
        created_at := now
        balance := 0
        points := 0 }
    (Except.ok user,
     { counter := (st.counter + 1) % U
       users := insertSorted id user st.users
       transactions := st.transactions })

/-- `deposit_funds` (lib.rs lines 193–214). -/
def deposit_funds (st : LedgerState) (p : DepositPayload) :
    Except Message Message × LedgerState :=
  if p.amount = 0 then
    (Except.error (Message.InvalidPayload "Amount must be greater than 0."), st)
  else
    match lookupKey p.user_id st.users with
    | some user =>
      let user' : User := { user with balance := (user.balance + p.amount) % U }
      (Except.ok (Message.Success
        ("Deposited " ++ toString p.amount ++ " units of currency to user " ++
          toString p.user_id)),
       { st with users := insertSorted p.user_id user' (removeKey p.user_id st.users) })
    | none => (Except.error (Message.NotFound "User not found"), st)

/-- `USER_STORAGE.iter().find(|(_, user)| user.id == i)`: first stored user
(in key order) whose `id` field is `i` (lib.rs lines 224–230, 236–242,
335–345). -/
def findUserById (l : Store User) (i : Nat) : Option User :=
  (l.find? (fun kv => kv.2.id == i)).map (fun kv => kv.2)

/-- The points-award block of `send_transaction` (lib.rs lines 280–288):
remove the sender's record by key, add the points (1 per 10 units, wrapped
u64 addition), re-insert; no-op when the key is absent. -/
def award_points (k : Nat) (pts : Nat) (l : Store User) : Store User :=
  match lookupKey k l with
  | some fu =>
    insertSorted k { fu with points := (fu.points + pts) % U } (removeKey k l)
  | none => l

/-- `send_transaction` (lib.rs lines 216–291). -/
def send_transaction (st : LedgerState) (now : Nat) (p : TransactionPayload) :
    Except Message Transaction × LedgerState :=
  if p.amount = 0 then
    (Except.error (Message.InvalidPayload "Amount must be greater than 0."), st)
  else
    match findUserById st.users p.from_user_id with
    | none => (Except.error (Message.NotFound "Sender not found"), st)
    | some from_user =>
      match findUserById st.users p.to_user_id with
      | none => (Except.error (Message.NotFound "Recipient not found"), st)
      | some to_user =>
        if from_user.balance < p.amount then
          (Except.error (Message.Error "Insufficient balance."), st)
        else
          let from_user' : User :=
            { from_user with balance := from_user.balance - p.amount }
          let to_user' : User :=
            { to_user with balance := (to_user.balance + p.amount) % U }
          let users1 :=
            insertSorted to_user'.id to_user'
              (insertSorted from_user'.id from_user' st.users)
          let id := st.counter
          let transaction : Transaction :=
            { id := id
              from_user_id := p.from_user_id
              to_user_id := p.to_user_id
              amount := p.amount
              created_at := now }
          let users2 := award_points p.from_user_id (p.amount / 10) users1
          (Except.ok transaction,
           { counter := (st.counter + 1) % U
             users := users2
             transactions := insertSorted id transaction st.transactions })

/-- `redeem_points` (lib.rs lines 293–313). -/
def redeem_points (st : LedgerState) (p : PointsPayload) :
    Except Message Message × LedgerState :=
  match lookupKey p.user_id st.users with
  | some user =>
    if p.points ≤ user.points then
      let user' : User := { user with points := user.points - p.points }
      (Except.ok (Message.Success
        ("Redeemed " ++ toString p.points ++ " points from user " ++
          toString p.user_id)),
       { st with users := insertSorted p.user_id user' (removeKey p.user_id st.users) })
    else
      (Except.error (Message.Error "Insufficient points."),
       { st with users := insertSorted p.user_id user (removeKey p.user_id st.users) })
  | none => (Except.error (Message.NotFound "User not found"), st)

/-- `get_transaction_history` (lib.rs lines 315–333), a query: pure in the
state. -/
def get_transaction_history (st : LedgerState) (user_id : Nat) :
    Except Message (List Transaction) :=
  let transactions :=
    (st.transactions.filter
      (fun kv => kv.2.from_user_id == user_id || kv.2.to_user_id == user_id)).map
      (fun kv => kv.2)
  if transactions.isEmpty then
    Except.error (Message.NotFound "No transactions found")
  else
    Except.ok transactions

/-- `get_user_balance` (lib.rs lines 335–345), a query. -/
def get_user_balance (st : LedgerState) (user_id : Nat) : Except Message Nat :=
  match findUserById st.users user_id with
  | some user => Except.ok user.balance
  | none => Except.error (Message.NotFound "User not found")

/-- `get_user_points` (lib.rs lines 347–357), a query. -/
def get_user_points (st : LedgerState) (user_id : Nat) : Except Message Nat :=
  match findUserById st.users user_id with
  | some user => Except.ok user.points
  | none => Except.error (Message.NotFound "User not found")

/-! ## Bridging the id-field scan with key lookup -/

theorem findUserById_eq_lookupKey {l : Store User}
    (hid : ∀ kv ∈ l, (kv.2 : User).id = kv.1) (i : Nat) :
    findUserById l i = lookupKey i l := by
  induction l with
  | nil => rfl
  | cons hd tl ih =>
    obtain ⟨k, v⟩ := hd
    have hvk : v.id = k := hid (k, v) (by simp)
    by_cases h : i = k
    · subst h
      simp only [findUserById]
      rw [List.find?_cons_of_pos _ (by simp [hvk])]
      simp [lookupKey]
    · simp only [findUserById]
      rw [List.find?_cons_of_neg _ (by simp [hvk]; omega)]
      simp only [lookupKey, if_neg h]
      exact ih (fun kv hkv => hid kv (by simp [hkv]))

theorem lookup_id_eq {l : Store User} {k : Nat} {u : User}
    (hid : ∀ kv ∈ l, (kv.2 : User).id = kv.1) (h : lookupKey k l = some u) :
    u.id = k :=
  hid (k, u) (lookupKey_some_mem h)

/-! ## Operation sequences and the shared id counter -/

/-- One exposed canister call, with its external time input where the code
stamps `created_at`. -/
inductive Op where
  | create (now : Nat) (p : UserPayload)
  | deposit (p : DepositPayload)
  | send (now : Nat) (p : TransactionPayload)
  | redeem (p : PointsPayload)
  | history (u : Nat)
  | balance (u : Nat)
  | pointsOf (u : Nat)

/-- The state after one call (queries leave the state unchanged). -/
def applyOp (st : LedgerState) : Op → LedgerState
  | .create now p => (create_user st now p).2
  | .deposit p => (deposit_funds st p).2
  | .send now p => (send_transaction st now p).2
  | .redeem p => (redeem_points st p).2
  | .history _ => st
  | .balance _ => st
  | .pointsOf _ => st

/-- The identifiers issued by one call: the returned user's id for a
successful `create_user`, the returned transaction's id for a successful
`send_transaction`, nothing otherwise. -/
def issuedByOp (st : LedgerState) : Op → List Nat
  | .create now p =>
    match (create_user st now p).1 with
    | .ok u => [u.id]
    | .error _ => []
  | .send now p =>
    match (send_transaction st now p).1 with
    | .ok t => [t.id]
    | .error _ => []
  | _ => []

/-- All identifiers issued along a sequence of calls, in issuance order. -/
def issuedAlong (st : LedgerState) : List Op → List Nat
  | [] => []
  | op :: ops => issuedByOp st op ++ issuedAlong (applyOp st op) ops

theorem create_user_ok_inv {st : LedgerState} {now : Nat} {p : UserPayload}
    {u : User} {st' : LedgerState}
    (h : create_user st now p = (Except.ok u, st')) :
    u.id = st.counter ∧ u.balance = 0 ∧
      st'.counter = (st.counter + 1) % U ∧
      st'.users = insertSorted st.counter u st.users ∧
      st'.transactions = st.transactions := by
  unfold create_user at h
  repeat' split at h
  all_goals simp_all
  obtain ⟨h1, h2⟩ := h
  subst h1
  subst h2
  simp

theorem create_user_err_inv {st : LedgerState} {now : Nat} {p : UserPayload}
    {e : Message} {st' : LedgerState}
    (h : create_user st now p = (Except.error e, st')) : st' = st := by
  unfold create_user at h
  repeat' split at h
  all_goals simp_all

theorem send_ok_inv {st : LedgerState} {now : Nat} {p : TransactionPayload}
    {t : Transaction} {st' : LedgerState}
    (h : send_transaction st now p = (Except.ok t, st')) :
    t.id = st.counter ∧ st'.counter = (st.counter + 1) % U := by
  unfold send_transaction at h
  repeat' split at h
  all_goals simp_all
  obtain ⟨h1, h2⟩ := h
  subst h1
  subst h2
  simp

theorem send_err_inv {st : LedgerState} {now : Nat} {p : TransactionPayload}
    {e : Message} {st' : LedgerState}
    (h : send_transaction st now p = (Except.error e, st')) : st' = st := by
  unfold send_transaction at h
  repeat' split at h
  all_goals simp_all

theorem deposit_funds_counter (st : LedgerState) (p : DepositPayload) :
    (deposit_funds st p).2.counter = st.counter := by
  unfold deposit_funds
  split
  · rfl
  · split <;> rfl

theorem redeem_points_counter (st : LedgerState) (p : PointsPayload) :
    (redeem_points st p).2.counter = st.counter := by
  unfold redeem_points
  split
  · split <;> rfl
  · rfl

/-- Every call either issues no id and leaves the counter alone, or issues
exactly the current counter value and bumps the counter. -/
theorem issuedByOp_cases (st : LedgerState) (op : Op) :
    (issuedByOp st op = [] ∧ (applyOp st op).counter = st.counter) ∨
    (issuedByOp st op = [st.counter] ∧
      (applyOp st op).counter = (st.counter + 1) % U) := by
  cases op with
  | create now p =>
    rcases hres : create_user st now p with ⟨r, st2⟩
    cases r with
    | ok u =>
      right
      obtain ⟨hid, _, hcnt, _, _⟩ := create_user_ok_inv hres
      simp [issuedByOp, applyOp, hres, hid, hcnt]
    | error e =>
      left
      have hst := create_user_err_inv hres
      simp [issuedByOp, applyOp, hres, hst]
  | deposit p =>
    left
    simp [issuedByOp, applyOp, deposit_funds_counter]
  | send now p =>
    rcases hres : send_transaction st now p with ⟨r, st2⟩
    cases r with
    | ok t =>
      right
      obtain ⟨hid, hcnt⟩ := send_ok_inv hres
      simp [issuedByOp, applyOp, hres, hid, hcnt]
    | error e =>
      left
      have hst := send_err_inv hres
      simp [issuedByOp, applyOp, hres, hst]
  | redeem p =>
    left
    simp [issuedByOp, applyOp, redeem_points_counter]
  | history u => simp [issuedByOp, applyOp]
  | balance u => simp [issuedByOp, applyOp]
  | pointsOf u => simp [issuedByOp, applyOp]

theorem issuedAlong_eq_range' (ops : List Op) (st : LedgerState)
    (h : st.counter + (issuedAlong st ops).length ≤ U) :
    issuedAlong st ops = List.range' st.counter (issuedAlong st ops).length := by
  induction ops generalizing st with
  | nil => rfl
  | cons op ops ih =>
    rcases issuedByOp_cases st op with ⟨hi, hc⟩ | ⟨hi, hc⟩
    · simp only [issuedAlong, hi, List.nil_append]
      have h' : (applyOp st op).counter +
          (issuedAlong (applyOp st op) ops).length ≤ U := by
        rw [hc]
        simpa [issuedAlong, hi] using h
      have heq := ih (applyOp st op) h'
      rw [hc] at heq
      exact heq
    · simp only [issuedAlong, hi, List.cons_append, List.nil_append,
        List.length_cons]
      have hlen : st.counter + ((issuedAlong (applyOp st op) ops).length + 1) ≤ U := by
        simpa [issuedAlong, hi] using h
      by_cases hlt : st.counter + 1 < U
      · have hc' : (applyOp st op).counter = st.counter + 1 := by
          rw [hc, Nat.mod_eq_of_lt hlt]
        have h' : (applyOp st op).counter +
            (issuedAlong (applyOp st op) ops).length ≤ U := by
          rw [hc']; omega
        have heq := ih (applyOp st op) h'
        rw [hc'] at heq
        rw [List.range'_succ]
        exact congrArg (List.cons st.counter) heq
      · have hn : (issuedAlong (applyOp st op) ops).length = 0 := by omega
        rw [List.length_eq_zero.mp hn]
        simp [List.range'_one]

/-- Explicit shape of a successful `send_transaction`: with both lookups
succeeding, a nonzero amount and sufficient sender balance, the call commits
the debited sender, the credited recipient, the logged transaction and the
sender's points award. -/
theorem send_transaction_success (st : LedgerState) (now : Nat)
    (p : TransactionPayload) {A B : User}
    (hA : findUserById st.users p.from_user_id = some A)
    (hB : findUserById st.users p.to_user_id = some B)
    (hpos : p.amount ≠ 0)
    (hbal : ¬ A.balance < p.amount)
    (hAid : A.id = p.from_user_id)
    (hBid : B.id = p.to_user_id) :
    send_transaction st now p =
      (Except.ok
        { id := st.counter
          from_user_id := p.from_user_id
          to_user_id := p.to_user_id
          amount := p.amount
          created_at := now },
       { counter := (st.counter + 1) % U
         users := award_points p.from_user_id (p.amount / 10)
           (insertSorted p.to_user_id { B with balance := (B.balance + p.amount) % U }
             (insertSorted p.from_user_id { A with balance := A.balance - p.amount }
               st.users))
         transactions := insertSorted st.counter
           { id := st.counter
             from_user_id := p.from_user_id
             to_user_id := p.to_user_id
             amount := p.amount
             created_at := now }
           st.transactions }) := by
  unfold send_transaction
  rw [if_neg hpos, hA, hB]
  simp [hbal, hAid, hBid]

theorem award_points_lookup_self {k pts : Nat} {l : Store User} {fu : User}
    (h : lookupKey k l = some fu) :
    lookupKey k (award_points k pts l) =
      some { fu with points := (fu.points + pts) % U } := by
  unfold award_points
  rw [h]
  exact lookupKey_insertSorted_self _ _ _

theorem award_points_lookup_ne {j k pts : Nat} {l : Store User} (hjk : j ≠ k) :
    lookupKey j (award_points k pts l) = lookupKey j l := by
  unfold award_points
  cases hl : lookupKey k l with
  | none => rfl
  | some fu => rw [lookupKey_insertSorted_ne hjk, lookupKey_removeKey_ne hjk]

theorem sumBal_award_points (k pts : Nat) {l : Store User} (hs : SortedKeys l) :
    sumBal (award_points k pts l) = sumBal l := by
  unfold award_points
  cases hl : lookupKey k l with
  | none => rfl
  | some fu =>
    have h1 := sumBal_removeKey_present hs hl
    have h2 : lookupKey k (removeKey k l) = (none : Option User) :=
      lookupKey_removeKey_self hs
    have h3 := sumBal_insertSorted_absent
      { fu with points := (fu.points + pts) % U } h2
    have hv : ({ fu with points := (fu.points + pts) % U } : User).balance
        = fu.balance := rfl
    rw [hv] at h3
    show sumBal (insertSorted k { fu with points := (fu.points + pts) % U }
      (removeKey k l)) = sumBal l
    rw [h3]
    omega

/-- C1: for distinct existing users A (sender) and B (recipient) and any
amount n with 0 < n ≤ A.balance (and B's credited balance within u64),
`send_transaction` succeeds; afterwards A's stored balance is
A.balance - n, B's stored balance is B.balance + n, the sum of the two
balances is unchanged, and the total balance across all users is
unchanged. -/
theorem C1_transfer_conservation (st : LedgerState) (now : Nat)
    (p : TransactionPayload) (A B : User)
    (hwf : UsersWF st.users)
    (hA : lookupKey p.from_user_id st.users = some A)
    (hB : lookupKey p.to_user_id st.users = some B)
    (hne : p.from_user_id ≠ p.to_user_id)
    (hpos : 0 < p.amount)
    (hbal : p.amount ≤ A.balance)
    (hnoflow : B.balance + p.amount < U) :
    ∃ tx st', send_transaction st now p = (Except.ok tx, st') ∧
      (∃ A', lookupKey p.from_user_id st'.users = some A' ∧
        A'.balance = A.balance - p.amount) ∧
      (∃ B', lookupKey p.to_user_id st'.users = some B' ∧
        B'.balance = B.balance + p.amount) ∧
      (A.balance - p.amount) + (B.balance + p.amount) = A.balance + B.balance ∧
      sumBal st'.users = sumBal st.users := by
  obtain ⟨hsort, hids⟩ := hwf
  have hfA : findUserById st.users p.from_user_id = some A := by
    rw [findUserById_eq_lookupKey hids]; exact hA
  have hfB : findUserById st.users p.to_user_id = some B := by
    rw [findUserById_eq_lookupKey hids]; exact hB
  have hAid : A.id = p.from_user_id := lookup_id_eq hids hA
  have hBid : B.id = p.to_user_id := lookup_id_eq hids hB
  have hmain := send_transaction_success st now p hfA hfB
    (by omega) (by omega) hAid hBid
  set A1 : User := { A with balance := A.balance - p.amount } with hA1
  set B1 : User := { B with balance := (B.balance + p.amount) % U } with hB1
  have hA1bal : A1.balance = A.balance - p.amount := by rw [hA1]
  have hB1bal : B1.balance = (B.balance + p.amount) % U := by rw [hB1]
  have hmodB : (B.balance + p.amount) % U = B.balance + p.amount :=
    Nat.mod_eq_of_lt hnoflow
  have hs1 : SortedKeys (insertSorted p.from_user_id A1 st.users) :=
    sortedKeys_insertSorted _ _ hsort
  have hsU1 : SortedKeys (insertSorted p.to_user_id B1
      (insertSorted p.from_user_id A1 st.users)) :=
    sortedKeys_insertSorted _ _ hs1
  have hlk1 : lookupKey p.from_user_id
      (insertSorted p.to_user_id B1 (insertSorted p.from_user_id A1 st.users))
      = some A1 := by
    rw [lookupKey_insertSorted_ne hne]
    exact lookupKey_insertSorted_self _ _ _
  refine ⟨_, _, hmain, ?_, ?_, by omega, ?_⟩
  · refine ⟨{ A1 with points := (A1.points + p.amount / 10) % U }, ?_, hA1bal⟩
    exact award_points_lookup_self hlk1
  · refine ⟨B1, ?_, by rw [hB1bal, hmodB]⟩
    rw [award_points_lookup_ne (Ne.symm hne)]
    exact lookupKey_insertSorted_self _ _ _
  · have e1 := sumBal_insertSorted_present A1 hsort hA
    have e2 : lookupKey p.to_user_id
        (insertSorted p.from_user_id A1 st.users) = some B := by
      rw [lookupKey_insertSorted_ne (Ne.symm hne)]; exact hB
    have e3 := sumBal_insertSorted_present B1 hs1 e2
    have e4 := sumBal_award_points p.from_user_id (p.amount / 10) hsU1
    rw [e4]
    rw [hA1bal] at e1
    rw [hB1bal, hmodB] at e3
    omega

/-- C2: a self-transfer (from_user_id = to_user_id) of amount n with
0 < n ≤ balance succeeds and leaves the user's stored balance at
balance + n: the recipient copy's insert overwrites the sender copy's
insert under the same key, so the total balance across all users
increases by n. -/
theorem C2_self_transfer_inflates (st : LedgerState) (now : Nat)
    (p : TransactionPayload) (A : User)
    (hwf : UsersWF st.users)
    (hA : lookupKey p.from_user_id st.users = some A)
    (hself : p.to_user_id = p.from_user_id)
    (hpos : 0 < p.amount)
    (hbal : p.amount ≤ A.balance)
    (hnoflow : A.balance + p.amount < U) :
    ∃ tx st', send_transaction st now p = (Except.ok tx, st') ∧
      (∃ A', lookupKey p.from_user_id st'.users = some A' ∧
        A'.balance = A.balance + p.amount) ∧
      sumBal st'.users = sumBal st.users + p.amount := by
  obtain ⟨hsort, hids⟩ := hwf
  have hfA : findUserById st.users p.from_user_id = some A := by
    rw [findUserById_eq_lookupKey hids]; exact hA
  have hB : lookupKey p.to_user_id st.users = some A := by
    rw [hself]; exact hA
  have hfB : findUserById st.users p.to_user_id = some A := by
    rw [findUserById_eq_lookupKey hids]; exact hB
  have hAid : A.id = p.from_user_id := lookup_id_eq hids hA
  have hBid : A.id = p.to_user_id := by rw [hself]; exact hAid
  have hmain := send_transaction_success st now p hfA hfB
    (by omega) (by omega) hAid hBid
  rw [hself] at hmain
  set A1 : User := { A with balance := A.balance - p.amount } with hA1
  set B1 : User := { A with balance := (A.balance + p.amount) % U } with hB1
  have hA1bal : A1.balance = A.balance - p.amount := by rw [hA1]
  have hB1bal : B1.balance = (A.balance + p.amount) % U := by rw [hB1]
  have hmod : (A.balance + p.amount) % U = A.balance + p.amount :=
    Nat.mod_eq_of_lt hnoflow
  have hs1 : SortedKeys (insertSorted p.from_user_id A1 st.users) :=
    sortedKeys_insertSorted _ _ hsort
  have hsU1 : SortedKeys (insertSorted p.from_user_id B1
      (insertSorted p.from_user_id A1 st.users)) :=
    sortedKeys_insertSorted _ _ hs1
  have hlk1 : lookupKey p.from_user_id (insertSorted p.from_user_id B1
      (insertSorted p.from_user_id A1 st.users)) = some B1 :=
    lookupKey_insertSorted_self _ _ _
  refine ⟨_, _, hmain, ?_, ?_⟩
  · refine ⟨{ B1 with points := (B1.points + p.amount / 10) % U },
      award_points_lookup_self hlk1, ?_⟩
    show B1.balance = A.balance + p.amount
    rw [hB1bal, hmod]
  · have e1 := sumBal_insertSorted_present A1 hsort hA
    have e2 : lookupKey p.from_user_id
        (insertSorted p.from_user_id A1 st.users) = some A1 :=
      lookupKey_insertSorted_self _ _ _
    have e3 := sumBal_insertSorted_present B1 hs1 e2
    have e4 := sumBal_award_points p.from_user_id (p.amount / 10) hsU1
    rw [e4]
    rw [hA1bal] at e1 e3
    rw [hB1bal, hmod] at e3
    omega

/-- C3: with both participants existing and a positive amount exceeding the
sender's balance, send_transaction fails with Error "Insufficient balance."
and returns the state completely unchanged (no user record, transaction-log
entry or counter value is modified). -/
theorem C3_insufficient_balance (st : LedgerState) (now : Nat)
    (p : TransactionPayload) (A B : User)
    (hwf : UsersWF st.users)
    (hA : lookupKey p.from_user_id st.users = some A)
    (hB : lookupKey p.to_user_id st.users = some B)
    (hpos : 0 < p.amount)
    (hlt : A.balance < p.amount) :
    send_transaction st now p =
      (Except.error (Message.Error "Insufficient balance."), st) := by
  have hids := hwf.2
  have hfA : findUserById st.users p.from_user_id = some A := by
    rw [findUserById_eq_lookupKey hids]; exact hA
  have hfB : findUserById st.users p.to_user_id = some B := by
    rw [findUserById_eq_lookupKey hids]; exact hB
  unfold send_transaction
  rw [if_neg (by omega : ¬ p.amount = 0), hfA, hfB]
  simp [hlt]

/-- C4: after every successful send_transaction of amount n, the sender's
stored points increase by exactly n / 10 (integer division, truncated), and
no other user's stored points change. -/
theorem C4_points_award (st : LedgerState) (now : Nat)
    (p : TransactionPayload) (A B : User)
    (hwf : UsersWF st.users)
    (hA : lookupKey p.from_user_id st.users = some A)
    (hB : lookupKey p.to_user_id st.users = some B)
    (hpos : 0 < p.amount)
    (hbal : p.amount ≤ A.balance)
    (hnopts : A.points + p.amount / 10 < U) :
    ∃ tx st', send_transaction st now p = (Except.ok tx, st') ∧
      (lookupKey p.from_user_id st'.users).map User.points =
        some (A.points + p.amount / 10) ∧
      ∀ k, k ≠ p.from_user_id →
        (lookupKey k st'.users).map User.points =
          (lookupKey k st.users).map User.points := by
  obtain ⟨hsort, hids⟩ := hwf
  have hfA : findUserById st.users p.from_user_id = some A := by
    rw [findUserById_eq_lookupKey hids]; exact hA
  have hfB : findUserById st.users p.to_user_id = some B := by
    rw [findUserById_eq_lookupKey hids]; exact hB
  have hAid : A.id = p.from_user_id := lookup_id_eq hids hA
  have hBid : B.id = p.to_user_id := lookup_id_eq hids hB
  have hmain := send_transaction_success st now p hfA hfB
    (by omega) (by omega) hAid hBid
  have hmodp : (A.points + p.amount / 10) % U = A.points + p.amount / 10 :=
    Nat.mod_eq_of_lt hnopts
  by_cases hto : p.to_user_id = p.from_user_id
  · -- self transfer: both lookups return the same record, and the stored
    -- copy at from_user_id before the points step is the recipient copy
    have hBA : B = A := by
      rw [hto, hA] at hB
      exact Option.some_injective _ hB.symm
    rw [hto, hBA] at hmain
    have hlk1 : lookupKey p.from_user_id
        (insertSorted p.from_user_id
          { A with balance := (A.balance + p.amount) % U }
          (insertSorted p.from_user_id
            { A with balance := A.balance - p.amount } st.users)) =
        some { A with balance := (A.balance + p.amount) % U } :=
      lookupKey_insertSorted_self _ _ _
    refine ⟨_, _, hmain, ?_, ?_⟩
    · rw [award_points_lookup_self hlk1]
      simp only [Option.map_some']
      show some ((A.points + p.amount / 10) % U) = _
      rw [hmodp]
    · intro k hk
      rw [award_points_lookup_ne hk, lookupKey_insertSorted_ne hk,
        lookupKey_insertSorted_ne hk]
  · have hlk1 : lookupKey p.from_user_id
        (insertSorted p.to_user_id
          { B with balance := (B.balance + p.amount) % U }
          (insertSorted p.from_user_id
            { A with balance := A.balance - p.amount } st.users)) =
        some { A with balance := A.balance - p.amount } := by
      rw [lookupKey_insertSorted_ne (Ne.symm hto)]
      exact lookupKey_insertSorted_self _ _ _
    refine ⟨_, _, hmain, ?_, ?_⟩
    · rw [award_points_lookup_self hlk1]
      simp only [Option.map_some']
      show some ((A.points + p.amount / 10) % U) = _
      rw [hmodp]
    · intro k hk
      rw [award_points_lookup_ne hk]
      by_cases hk2 : k = p.to_user_id
      · subst hk2
        rw [lookupKey_insertSorted_self _ _ _, hB]
        rfl
      · rw [lookupKey_insertSorted_ne hk2, lookupKey_insertSorted_ne hk]

/-- C5: `get_transaction_history u` returns exactly the stored transactions
whose `from_user_id` or `to_user_id` is `u`, in ascending transaction-id
order; it returns NotFound exactly when no such transaction is stored; and,
being a query, it modifies no state. -/
theorem C5_history_spec (st : LedgerState) (u : Nat)
    (hwf : TxsWF st.transactions) :
    (∀ l, get_transaction_history st u = Except.ok l →
      (∀ t : Transaction, t ∈ l ↔ ((t.id, t) ∈ st.transactions ∧
        (t.from_user_id = u ∨ t.to_user_id = u))) ∧
      List.Pairwise (fun a b => a.id < b.id) l ∧ l ≠ []) ∧
    (get_transaction_history st u =
        Except.error (Message.NotFound "No transactions found") ↔
      ∀ kv ∈ st.transactions, ¬((kv.2 : Transaction).from_user_id = u ∨
        (kv.2 : Transaction).to_user_id = u)) ∧
    applyOp st (Op.history u) = st := by
  obtain ⟨hsort, hids⟩ := hwf
  refine ⟨?_, ?_, rfl⟩
  · intro l hl
    unfold get_transaction_history at hl
    by_cases hemp : (List.map (fun kv => kv.2)
        (List.filter (fun kv => kv.2.from_user_id == u || kv.2.to_user_id == u)
          st.transactions)).isEmpty = true
    · rw [if_pos hemp] at hl
      exact absurd hl (by simp)
    · rw [if_neg hemp] at hl
      have hleq : l = List.map (fun kv => kv.2)
          (List.filter (fun kv => kv.2.from_user_id == u || kv.2.to_user_id == u)
            st.transactions) := by
        cases hl
        rfl
      subst hleq
      refine ⟨?_, ?_, ?_⟩
      · intro t
        constructor
        · intro ht
          obtain ⟨kv, hkv, hkv2⟩ := List.mem_map.mp ht
          obtain ⟨hmem, hp⟩ := List.mem_filter.mp hkv
          have hkid : kv.2.id = kv.1 := hids kv hmem
          have hkvt : kv = (t.id, t) := by
            obtain ⟨k1, v1⟩ := kv
            simp only at hkv2
            subst hkv2
            simp only at hkid
            rw [← hkid]
          rw [hkvt] at hmem hp
          simp only [Bool.or_eq_true, beq_iff_eq] at hp
          exact ⟨hmem, hp⟩
        · intro ⟨hmem, hp⟩
          refine List.mem_map.mpr ⟨(t.id, t), List.mem_filter.mpr ⟨hmem, ?_⟩, rfl⟩
          simp only [Bool.or_eq_true, beq_iff_eq]
          exact hp
      · have hpf : List.Pairwise (fun a b => a.1 < b.1)
            (List.filter (fun kv => kv.2.from_user_id == u || kv.2.to_user_id == u)
              st.transactions) :=
          hsort.sublist (List.filter_sublist _)
        have hpf2 : List.Pairwise
            (fun a b : Nat × Transaction => a.2.id < b.2.id)
            (List.filter (fun kv => kv.2.from_user_id == u || kv.2.to_user_id == u)
              st.transactions) := by
          refine hpf.imp_of_mem ?_
          intro a b ha hb hab
          have hia : a.2.id = a.1 :=
            hids a ((List.mem_filter.mp ha).1)
          have hib : b.2.id = b.1 :=
            hids b ((List.mem_filter.mp hb).1)
          rw [hia, hib]
          exact hab
        exact List.pairwise_map.mpr hpf2
      · intro hnil
        rw [hnil] at hemp
        simp at hemp
  · constructor
    · intro herr
      unfold get_transaction_history at herr
      by_cases hemp : (List.map (fun kv => kv.2)
          (List.filter (fun kv => kv.2.from_user_id == u || kv.2.to_user_id == u)
            st.transactions)).isEmpty = true
      · intro kv hkv
        simp only [List.isEmpty_iff, List.map_eq_nil_iff, List.filter_eq_nil_iff] at hemp
        have := hemp kv hkv
        simp only [Bool.or_eq_true, beq_iff_eq] at this
        intro hor
        exact this hor
      · rw [if_neg hemp] at herr
        exact absurd herr (by simp)
    · intro hnone
      unfold get_transaction_history
      have hemp : (List.filter
          (fun kv => kv.2.from_user_id == u || kv.2.to_user_id == u)
          st.transactions) = [] := by
        rw [List.filter_eq_nil_iff]
        intro kv hkv
        have := hnone kv hkv
        simp only [Bool.or_eq_true, beq_iff_eq]
        intro hor
        exact this hor
      rw [hemp]
      rfl

/-- C7: `redeem_points` succeeds and decrements the stored points by p when
p ≤ points; when p > points it fails with Error "Insufficient points." and
re-persists the unchanged record, leaving the state unchanged; an id that
does not resolve yields NotFound. -/
theorem C7_redeem_points_spec (st : LedgerState) (p : PointsPayload)
    (hwf : UsersWF st.users) :
    (∀ u : User, lookupKey p.user_id st.users = some u →
      (p.points ≤ u.points →
        redeem_points st p =
          (Except.ok (Message.Success ("Redeemed " ++ toString p.points ++
            " points from user " ++ toString p.user_id)),
           { st with
              users := insertSorted p.user_id
                  { u with points := u.points - p.points }
                  (removeKey p.user_id st.users) }) ∧
        (lookupKey p.user_id (insertSorted p.user_id
            { u with points := u.points - p.points }
            (removeKey p.user_id st.users))).map User.points =
          some (u.points - p.points)) ∧
      (u.points < p.points →
        redeem_points st p =
          (Except.error (Message.Error "Insufficient points."), st))) ∧
    (lookupKey p.user_id st.users = none →
      redeem_points st p =
        (Except.error (Message.NotFound "User not found"), st)) := by
  constructor
  · intro u hu
    constructor
    · intro hle
      constructor
      · simp only [redeem_points, hu]
        rw [if_pos hle]
      · rw [lookupKey_insertSorted_self _ _ _]
        rfl
    · intro hgt
      have hcancel := insertSorted_removeKey_cancel hwf.1 hu
      simp only [redeem_points, hu]
      rw [if_neg (by omega : ¬ p.points ≤ u.points), hcancel]
  · intro hnone
    simp only [redeem_points, hnone]

/-- C9: `send_transaction` with amount 0 always fails with InvalidPayload
and returns the state unchanged, for every state and every pair of user
ids. -/
theorem C9_zero_amount_rejected (st : LedgerState) (now f t : Nat) :
    send_transaction st now { from_user_id := f, to_user_id := t, amount := 0 } =
      (Except.error (Message.InvalidPayload "Amount must be greater than 0."),
       st) := rfl

/-- C10: every accepted create_user stores the new user with balance 0, so
get_user_balance on the returned user's id immediately afterwards returns
0. -/
theorem C10_new_user_zero_balance (st : LedgerState) (now : Nat)
    (p : UserPayload) (u : User) (st' : LedgerState)
    (hwf : UsersWF st.users)
    (h : create_user st now p = (Except.ok u, st')) :
    u.balance = 0 ∧ get_user_balance st' u.id = Except.ok 0 := by
  obtain ⟨hid, hbal, hcnt, husers, htx⟩ := create_user_ok_inv h
  refine ⟨hbal, ?_⟩
  have hids' : ∀ kv ∈ st'.users, (kv.2 : User).id = kv.1 := by
    rw [husers]
    intro kv hkv
    rcases mem_insertSorted hkv with h' | h'
    · rw [h']; exact hid
    · exact hwf.2 kv h'
  unfold get_user_balance
  rw [findUserById_eq_lookupKey hids', husers, hid,
    lookupKey_insertSorted_self _ _ _]
  simp [hbal]

/-- C8: across any sequence of operations whose issuances stay below the
u64 bound, the identifiers issued from the shared counter (user ids from
create_user and transaction ids from send_transaction together) are
pairwise strictly increasing in issuance order, hence all distinct. -/
theorem C8_issued_ids_strictly_increasing (st : LedgerState) (ops : List Op)
    (h : st.counter + (issuedAlong st ops).length ≤ U) :
    List.Pairwise (· < ·) (issuedAlong st ops) := by
  rw [issuedAlong_eq_range' ops st h]
  exact List.pairwise_lt_range' _ _

/-- C6 (amended): whenever some stored user already has the payload's email,
create_user fails with an InvalidPayload message and leaves the state
unchanged; the message is "Email already exists" whenever the payload also
passes the field-presence and format checks (otherwise the earlier check's
InvalidPayload message is returned first). -/
theorem C6_duplicate_email_rejected (st : LedgerState) (now : Nat)
    (p : UserPayload)
    (hdup : ∃ kv ∈ st.users, (kv.2 : User).email = p.email) :
    (∃ msg, create_user st now p =
      (Except.error (Message.InvalidPayload msg), st)) ∧
    ((p.first_name.isEmpty || p.last_name.isEmpty || p.email.isEmpty ||
        p.phone_number.isEmpty) = false →
      email_ok p.email = true →
      phone_ok p.phone_number = true →
      create_user st now p =
        (Except.error (Message.InvalidPayload "Email already exists"), st)) := by
  have hall : (st.users.all fun kv => kv.2.email != p.email) = false := by
    obtain ⟨kv, hkv, he⟩ := hdup
    rw [Bool.eq_false_iff]
    intro hcontra
    rw [List.all_eq_true] at hcontra
    have := hcontra kv hkv
    simp only [bne_iff_ne] at this
    exact this he
  have hlast : (!(st.users.all fun kv => kv.2.email != p.email)) = true := by
    rw [hall]; rfl
  constructor
  · unfold create_user
    by_cases h1 : (p.first_name.isEmpty || p.last_name.isEmpty ||
        p.email.isEmpty || p.phone_number.isEmpty) = true
    · rw [if_pos h1]; exact ⟨_, rfl⟩
    · rw [if_neg h1]
      by_cases h2 : (!email_ok p.email) = true
      · rw [if_pos h2]; exact ⟨_, rfl⟩
      · rw [if_neg h2]
        by_cases h3 : (!phone_ok p.phone_number) = true
        · rw [if_pos h3]; exact ⟨_, rfl⟩
        · rw [if_neg h3, if_pos hlast]
          exact ⟨_, rfl⟩
  · intro hf he hp
    unfold create_user
    rw [if_neg (by rw [hf]; simp : ¬ (p.first_name.isEmpty ||
        p.last_name.isEmpty || p.email.isEmpty || p.phone_number.isEmpty) = true)]
    rw [if_neg (by rw [he]; simp : ¬ (!email_ok p.email) = true)]
    rw [if_neg (by rw [hp]; simp : ¬ (!phone_ok p.phone_number) = true)]
    rw [if_pos hlast]

/-- The stored user of the C6 counterexample. -/
def cexStoredUser : User :=
  { id := 0, first_name := "Alice", last_name := "Smith",
    username := "alicesmith", email := "alice@x.com",
    phone_number := "+12345", created_at := 0, balance := 0, points := 0 }

/-- A state whose user store already holds the email "alice@x.com". -/
def cexState : LedgerState :=
  { counter := 1, users := [(0, cexStoredUser)], transactions := [] }

/-- A payload that carries the already-stored email but an empty
first_name. -/
def cexPayload : UserPayload :=
  { first_name := "", last_name := "Smith", email := "alice@x.com",
    phone_number := "+12345" }

/-- C6 as stated is false on the code: this create_user call carries an
email that already exists in the store, yet it fails with the
field-presence InvalidPayload message, not with
InvalidPayload "Email already exists". -/
theorem C6_counterexample :
    (∃ kv ∈ cexState.users, (kv.2 : User).email = cexPayload.email) ∧
    create_user cexState 0 cexPayload =
      (Except.error (Message.InvalidPayload
        "Ensure \x27first_name\x27, \x27last_name\x27, \x27email\x27, and \x27phone_number\x27 are provided."),
       cexState) ∧
    "Ensure \x27first_name\x27, \x27last_name\x27, \x27email\x27, and \x27phone_number\x27 are provided." ≠
      "Email already exists" := by
  refine ⟨⟨(0, cexStoredUser), by simp [cexState], rfl⟩, rfl, by decide⟩

/-! ## Concrete states for evaluating the theorems -/

def wUserA : User :=
  { id := 0, first_name := "Alice", last_name := "Smith",
    username := "alicesmith", email := "alice@x.com",
    phone_number := "+12345", created_at := 0, balance := 100, points := 0 }

def wUserB : User :=
  { id := 1, first_name := "Bob", last_name := "Jones",
    username := "bobjones", email := "bob@x.com",
    phone_number := "+54321", created_at := 0, balance := 5, points := 7 }

def wState : LedgerState :=
  { counter := 2, users := [(0, wUserA), (1, wUserB)], transactions := [] }

def wTx1 : Transaction :=
  { id := 2, from_user_id := 0, to_user_id := 1, amount := 30, created_at := 5 }

def wTx2 : Transaction :=
  { id := 3, from_user_id := 1, to_user_id := 1, amount := 1, created_at := 6 }

def wStateTx : LedgerState :=
  { counter := 4, users := [(0, wUserA), (1, wUserB)],
    transactions := [(2, wTx1), (3, wTx2)] }

def wPayloadA : UserPayload :=
  { first_name := "Alice", last_name := "Smith", email := "alice@x.com",
    phone_number := "+12345" }

def wPayloadB : UserPayload :=
  { first_name := "Bob", last_name := "Jones", email := "bob@x.com",
    phone_number := "+54321" }

def wPayloadC : UserPayload :=
  { first_name := "Carol", last_name := "White", email := "carol@x.com",
    phone_number := "+99999" }

def wUserC : User :=
  { id := 2, first_name := "Carol", last_name := "White",
    username := "carolwhite", email := "carol@x.com",
    phone_number := "+99999", created_at := 3, balance := 0, points := 0 }

def wStateC : LedgerState :=
  { counter := 3, users := [(0, wUserA), (1, wUserB), (2, wUserC)],
    transactions := [] }

def genesisState : LedgerState :=
  { counter := 0, users := [], transactions := [] }

def wOps : List Op :=
  [Op.create 0 wPayloadA, Op.create 1 wPayloadB, Op.history 0]

/-! ## Witnesses -/

/-- C1 evaluated: transferring 30 from user 0 (balance 100) to user 1
(balance 5). -/
theorem C1_witness :
    ∃ tx st', send_transaction wState 5
        { from_user_id := 0, to_user_id := 1, amount := 30 } =
        (Except.ok tx, st') ∧
      (∃ A', lookupKey 0 st'.users = some A' ∧
        A'.balance = wUserA.balance - 30) ∧
      (∃ B', lookupKey 1 st'.users = some B' ∧
        B'.balance = wUserB.balance + 30) ∧
      (wUserA.balance - 30) + (wUserB.balance + 30) =
        wUserA.balance + wUserB.balance ∧
      sumBal st'.users = sumBal wState.users :=
  C1_transfer_conservation wState 5
    { from_user_id := 0, to_user_id := 1, amount := 30 } wUserA wUserB
    (by decide) rfl rfl (by decide) (by decide) (by decide) (by decide)

/-- C2 evaluated: user 1 (balance 5) sends 5 to itself and ends with
balance 10; the total grows by 5. -/
theorem C2_witness :
    ∃ tx st', send_transaction wState 6
        { from_user_id := 1, to_user_id := 1, amount := 5 } =
        (Except.ok tx, st') ∧
      (∃ A', lookupKey 1 st'.users = some A' ∧
        A'.balance = wUserB.balance + 5) ∧
      sumBal st'.users = sumBal wState.users + 5 :=
  C2_self_transfer_inflates wState 6
    { from_user_id := 1, to_user_id := 1, amount := 5 } wUserB
    (by decide) rfl rfl (by decide) (by decide) (by decide)

/-- C3 evaluated: user 1 (balance 5) cannot send 50 to user 0; the state is
returned unchanged. -/
theorem C3_witness :
    send_transaction wState 7
        { from_user_id := 1, to_user_id := 0, amount := 50 } =
      (Except.error (Message.Error "Insufficient balance."), wState) :=
  C3_insufficient_balance wState 7
    { from_user_id := 1, to_user_id := 0, amount := 50 } wUserB wUserA
    (by decide) rfl rfl (by decide) (by decide)

/-- C4 evaluated: sending 30 awards user 0 exactly 3 points; user 1's
points stay 7. -/
theorem C4_witness :
    ∃ tx st', send_transaction wState 8
        { from_user_id := 0, to_user_id := 1, amount := 30 } =
        (Except.ok tx, st') ∧
      (lookupKey 0 st'.users).map User.points =
        some (wUserA.points + 30 / 10) ∧
      ∀ k, k ≠ 0 →
        (lookupKey k st'.users).map User.points =
          (lookupKey k wState.users).map User.points :=
  C4_points_award wState 8
    { from_user_id := 0, to_user_id := 1, amount := 30 } wUserA wUserB
    (by decide) rfl rfl (by decide) (by decide) (by decide)

/-- C5 evaluated on a log with one transaction involving user 0 and one
not involving it. -/
theorem C5_witness :
    (∀ l, get_transaction_history wStateTx 0 = Except.ok l →
      (∀ t : Transaction, t ∈ l ↔ ((t.id, t) ∈ wStateTx.transactions ∧
        (t.from_user_id = 0 ∨ t.to_user_id = 0))) ∧
      List.Pairwise (fun a b => a.id < b.id) l ∧ l ≠ []) ∧
    (get_transaction_history wStateTx 0 =
        Except.error (Message.NotFound "No transactions found") ↔
      ∀ kv ∈ wStateTx.transactions, ¬((kv.2 : Transaction).from_user_id = 0 ∨
        (kv.2 : Transaction).to_user_id = 0)) ∧
    applyOp wStateTx (Op.history 0) = wStateTx :=
  C5_history_spec wStateTx 0 (by decide)

/-- C6 (amended) evaluated: replaying the valid payload whose email is
already stored fails with "Email already exists". -/
theorem C6_witness :
    (∃ msg, create_user cexState 9 wPayloadA =
      (Except.error (Message.InvalidPayload msg), cexState)) ∧
    ((wPayloadA.first_name.isEmpty || wPayloadA.last_name.isEmpty ||
        wPayloadA.email.isEmpty || wPayloadA.phone_number.isEmpty) = false →
      email_ok wPayloadA.email = true →
      phone_ok wPayloadA.phone_number = true →
      create_user cexState 9 wPayloadA =
        (Except.error (Message.InvalidPayload "Email already exists"),
         cexState)) :=
  C6_duplicate_email_rejected cexState 9 wPayloadA (by decide)

/-- C7 evaluated: user 1 holds 7 points. -/
theorem C7_witness :
    (∀ u : User, lookupKey 1 wState.users = some u →
      (3 ≤ u.points →
        redeem_points wState { user_id := 1, points := 3 } =
          (Except.ok (Message.Success ("Redeemed " ++ toString 3 ++
            " points from user " ++ toString 1)),
           { wState with
              users := insertSorted 1
                  { u with points := u.points - 3 }
                  (removeKey 1 wState.users) }) ∧
        (lookupKey 1 (insertSorted 1
            { u with points := u.points - 3 }
            (removeKey 1 wState.users))).map User.points =
          some (u.points - 3)) ∧
      (u.points < 3 →
        redeem_points wState { user_id := 1, points := 3 } =
          (Except.error (Message.Error "Insufficient points."), wState))) ∧
    (lookupKey 1 wState.users = none →
      redeem_points wState { user_id := 1, points := 3 } =
        (Except.error (Message.NotFound "User not found"), wState)) :=
  C7_redeem_points_spec wState { user_id := 1, points := 3 } (by decide)

/-- C8 evaluated: two user creations from a fresh state issue the ids
0 and 1, strictly increasing. -/
theorem C8_witness :
    List.Pairwise (· < ·) (issuedAlong genesisState wOps) :=
  C8_issued_ids_strictly_increasing genesisState wOps (by decide)

/-- C10 evaluated: creating Carol in a two-user store yields balance 0 and
get_user_balance 0. -/
theorem C10_witness :
    wUserC.balance = 0 ∧ get_user_balance wStateC wUserC.id = Except.ok 0 :=
  C10_new_user_zero_balance wState 3 wPayloadC wUserC wStateC
    (by decide) rfl

end CryptoWallet
